import Mathlib

/-!
Verification of the dual-language-server coordination layer
(`src/solidlsp/language_servers/astro_language_server.py`).

The embedding models:
* the companion (TypeScript) session's open-file table as an association
  list from URI to reference count (a Python `dict` keyed by URI),
* notifications sent to the companion session as an event list,
* the coordination layer (`AstroLanguageServer`) state as a record of its
  instance attributes,
* external collaborators (the filesystem enumeration, the wire responses,
  path/URI codecs, the base ignore policy) as parameters,
* Python exceptions raised by the code as `Except String`, and exceptions
  raised by external calls as explicit boolean fault parameters at the
  program points where a `try`/`except` in the source can observe them.

File-system paths are modelled as lists of path components (`FsPath`),
matching `pathlib`'s component-wise `is_relative_to` / `relative_to`
semantics; URIs and relative path strings stay `String`.
-/

/-- A file-system path, as its list of components (the view `pathlib.Path`
exposes for `is_relative_to` / `relative_to`). -/
abbrev FsPath := List String

/-- Test that `root` is a component-wise prefix of `p`: models
`Path(p).is_relative_to(root)` for absolute paths. -/
def isUnderRoot : FsPath → FsPath → Bool
  | [], _ => true
  | _ :: _, [] => false
  | r :: rs, c :: cs => r == c && isUnderRoot rs cs

/-- Drop the leading `root` components: models `Path(p).relative_to(root)`
(meaningful when `isUnderRoot root p`). -/
def relativeToRoot : FsPath → FsPath → FsPath
  | [], p => p
  | _ :: _, [] => []
  | _ :: rs, _ :: cs => relativeToRoot rs cs

/-- Test that `pat` is a prefix of `l` (character lists). -/
def charsStartWith : List Char → List Char → Bool
  | [], _ => true
  | _ :: _, [] => false
  | a :: pa, b :: pb => a == b && charsStartWith pa pb

/-- Test that `pat` occurs as a contiguous sublist of `l`: models Python's
substring test `pat in s` on the character level. -/
def charsContainSub (pat : List Char) : List Char → Bool
  | [] => charsStartWith pat []
  | c :: rest => charsStartWith pat (c :: rest) || charsContainSub pat rest

/-- Python `pat in s` (substring containment). -/
def strContainsSub (s pat : String) : Bool :=
  charsContainSub pat.data s.data

/-- Python `s.startswith(pat)`. -/
def strStartsWith (s pat : String) : Bool :=
  charsStartWith pat.data s.data

/-- A notification sent to the companion TypeScript session's process:
`textDocument/didOpen` or `textDocument/didClose` for a URI. -/
inductive Notif where
  | didOpen (uri : String)
  | didClose (uri : String)
deriving DecidableEq, Repr

/-- State of the companion `AstroTypeScriptServer` session:
its open-file table (`open_file_buffers`: URI to `ref_count`, a Python
`dict` modelled as an association list with unique keys), the
notifications it has been sent so far, and its `server_ready` event. -/
structure TsServerState where
  openFileBuffers : List (String × Int)
  sentNotifs : List Notif
  serverReady : Bool
deriving DecidableEq, Repr

/-- First binding of `uri` in the table (`dict` lookup). -/
def tblGet : List (String × Int) → String → Option Int
  | [], _ => none
  | (u, n) :: rest, uri => if u = uri then some n else tblGet rest uri

/-- Update the binding of `uri`, appending it if absent (`dict` store). -/
def tblSet : List (String × Int) → String → Int → List (String × Int)
  | [], uri, v => [(uri, v)]
  | (u, n) :: rest, uri, v =>
      if u = uri then (u, v) :: rest else (u, n) :: tblSet rest uri v

/-- Delete the binding of `uri` (`del dict[uri]`). -/
def tblRemove : List (String × Int) → String → List (String × Int)
  | [], _ => []
  | (u, n) :: rest, uri =>
      if u = uri then tblRemove rest uri else (u, n) :: tblRemove rest uri

/-- Modelled from the spec: `SolidLanguageServer.open_file` scope entry
(the base class is not under `src/`). Per §4.1 of the spec: "on entry, if
no existing buffer for that URI exists, synthesize one and emit an open
notification; increment its reference count". -/
def openFileEnter (ts : TsServerState) (uri : String) : TsServerState :=
  match tblGet ts.openFileBuffers uri with
  | none =>
      { ts with
        openFileBuffers := tblSet ts.openFileBuffers uri 1,
        sentNotifs := ts.sentNotifs ++ [Notif.didOpen uri] }
  | some n => { ts with openFileBuffers := tblSet ts.openFileBuffers uri (n + 1) }

/-- Modelled from the spec: `SolidLanguageServer.open_file` scope exit.
Per §4.1: "on scope exit, decrement the count and, if it reaches zero,
emit a close notification and remove the buffer"; an already-absent
buffer is a no-op ("already-closed files are never re-closed"). -/
def openFileExit (ts : TsServerState) (uri : String) : TsServerState :=
  match tblGet ts.openFileBuffers uri with
  | none => ts
  | some n =>
      if n - 1 = 0 then
        { ts with
          openFileBuffers := tblRemove ts.openFileBuffers uri,
          sentNotifs := ts.sentNotifs ++ [Notif.didClose uri] }
      else { ts with openFileBuffers := tblSet ts.openFileBuffers uri (n - 1) }

/-- The indexing loop's `file_buffer.ref_count += 1` on the buffer held
by the surrounding `open_file` scope (line 214). -/
def bumpRefCount (ts : TsServerState) (uri : String) : TsServerState :=
  match tblGet ts.openFileBuffers uri with
  | none => ts
  | some n => { ts with openFileBuffers := tblSet ts.openFileBuffers uri (n + 1) }

/-- Instance state of `AstroLanguageServer` relevant to the claims:
`server_started` (base-class start flag), `server_ready` and
`completions_available` events, the companion server reference
`_ts_server` and `_ts_server_started`, the one-shot indexing flag
`_astro_files_indexed`, the recorded URI list
`_indexed_astro_file_uris`, and the one-shot cross-file-wait flag
`_has_waited_for_cross_file_references`. -/
structure AstroCoordState where
  serverStarted : Bool
  serverReady : Bool
  completionsAvailable : Bool
  tsServer : Option TsServerState
  tsServerStarted : Bool
  astroFilesIndexed : Bool
  indexedAstroFileUris : List String
  hasWaitedForCrossFileReferences : Bool
deriving DecidableEq, Repr

/-- Model of `_find_all_astro_files` (lines 187-199) with the filesystem
enumeration abstracted: `relPaths` is what `repo_path.rglob("*.astro")`
yields, already relativized to the repository root (every `.astro` file
under the root, in `rglob` order). The source keeps a path when the
string `"node_modules"` is not a substring of the relative path and the
relative path does not start with `"."`. -/
def findAllAstroFiles (relPaths : List String) : List String :=
  relPaths.filter (fun p => !(strContainsSub p "node_modules") && !(strStartsWith p "."))

/-- Model of `AstroLanguageServer.is_ignored_dirname` (lines 163-169): the base
policy `base` (from `SolidLanguageServer`, supplied externally) extended
with `node_modules`, `dist`, and `.astro`. -/
def isIgnoredDirname (base : String → Bool) (dirname : String) : Bool :=
  base dirname || (dirname == "node_modules" || dirname == "dist" || dirname == ".astro")

/-- One iteration of the indexing loop (lines 211-217):
`with self._ts_server.open_file(astro_file) as file_buffer:` enters the
scope, `file_buffer.ref_count += 1` bumps the held buffer, the buffer's
URI is appended to `_indexed_astro_file_uris`, and leaving the `with`
scope runs the exit path. `pathToUri` abstracts the path-to-URI codec. -/
def indexOneAstroFile (pathToUri : String → String)
    (acc : TsServerState × List String) (file : String) :
    TsServerState × List String :=
  let uri := pathToUri file
  let ts1 := openFileEnter acc.1 uri
  let ts2 := bumpRefCount ts1 uri
  let ts3 := openFileExit ts2 uri
  (ts3, acc.2 ++ [uri])

/-- Model of `_ensure_astro_files_indexed_on_ts_server` (lines 201-223): return
immediately if `_astro_files_indexed` is set; raise if `_ts_server` is
`None`; otherwise run the indexing loop over the enumerated files and
set the one-shot flag. (The trailing settle `sleep` is a pure delay and
has no modelled effect.) -/
def ensureAstroFilesIndexed (pathToUri : String → String) (astroFiles : List String)
    (s : AstroCoordState) : Except String AstroCoordState :=
  if s.astroFilesIndexed then Except.ok s
  else
    match s.tsServer with
    | none => Except.error "TypeScript server not started - cannot index Astro files"
    | some ts =>
        let r := astroFiles.foldl (indexOneAstroFile pathToUri) (ts, s.indexedAstroFileUris)
        Except.ok { s with
          tsServer := some r.1,
          indexedAstroFileUris := r.2,
          astroFilesIndexed := true }

/-- Iterate `n` successive calls of `_ensure_astro_files_indexed_on_ts_server`
on the same coordination layer, stopping at the first raise. -/
def ensureIndexedN (pathToUri : String → String) (astroFiles : List String) :
    Nat → AstroCoordState → Except String AstroCoordState
  | 0, s => Except.ok s
  | n + 1, s =>
      match ensureAstroFilesIndexed pathToUri astroFiles s with
      | Except.ok s' => ensureIndexedN pathToUri astroFiles n s'
      | Except.error e => Except.error e

/-- A raw location item of a `textDocument/references` response. -/
structure TSLocation where
  uri : String
  line : Nat
  character : Nat
deriving DecidableEq, Repr

/-- A location returned by `_send_ts_references_request`: the raw item
(`new_item.update(item)`) plus the attached `absolutePath` and
`relativePath` fields (lines 254-258). -/
structure AstroLocation where
  loc : TSLocation
  absolutePath : FsPath
  relativePath : FsPath
deriving DecidableEq, Repr

/-- Post-processing of one raw response item (lines 243-258):
resolve the URI to an absolute path (`uriToPath` abstracts
`PathUtils.uri_to_path`); skip it when it is not under the repository
root; skip it when its relative path matches the ignore policy
(`ignored` abstracts `self.is_ignored_path`, inherited from the base
class); otherwise keep it with both paths attached. -/
def processReferenceItem (uriToPath : String → FsPath) (root : FsPath)
    (ignored : FsPath → Bool) (item : TSLocation) : Option AstroLocation :=
  let absPath := uriToPath item.uri
  if isUnderRoot root absPath then
    let relPath := relativeToRoot root absPath
    if ignored relPath then none
    else some { loc := item, absolutePath := absPath, relativePath := relPath }
  else none

/-- The predicate under which `_send_ts_references_request` keeps a raw
item: resolved path under the repository root and relative path not
matching the ignore policy. -/
def keepReference (uriToPath : String → FsPath) (root : FsPath)
    (ignored : FsPath → Bool) (item : TSLocation) : Bool :=
  isUnderRoot root (uriToPath item.uri) &&
    !(ignored (relativeToRoot root (uriToPath item.uri)))

/-- Model of `_send_ts_references_request` (lines 228-260): raise if `_ts_server`
is `None`; open the target file as a scoped hold for the duration of the
wire request (`with self._ts_server.open_file(relative_file_path):`);
the wire response is the external input `response` (`None` yields `[]`);
post-process each item with `processReferenceItem`. The unused position
arguments only flow into the wire request payload. -/
def sendTsReferences (pathToUri : String → String) (uriToPath : String → FsPath)
    (root : FsPath) (ignored : FsPath → Bool) (relFile : String)
    (_line _column : Nat) (response : Option (List TSLocation))
    (s : AstroCoordState) : Except String (List AstroLocation × AstroCoordState) :=
  match s.tsServer with
  | none => Except.error "TypeScript server not initialized - cannot send references request"
  | some ts =>
      let uri := pathToUri relFile
      let ts1 := openFileEnter ts uri
      let ts2 := openFileExit ts1 uri
      let result :=
        match response with
        | none => []
        | some items => items.filterMap (processReferenceItem uriToPath root ignored)
      Except.ok (result, { s with tsServer := some ts2 })

/-- Model of `request_references` (lines 262-273): guard on `server_started`
(raising `SolidLSPException("Language Server not started")` otherwise);
run the one-shot cross-file settle wait (`sleep` plus flag); ensure
indexing; then `_send_ts_references_request`. -/
def requestReferences (pathToUri : String → String) (uriToPath : String → FsPath)
    (root : FsPath) (ignored : FsPath → Bool) (astroFiles : List String)
    (relFile : String) (line column : Nat) (response : Option (List TSLocation))
    (s : AstroCoordState) : Except String (List AstroLocation × AstroCoordState) :=
  if s.serverStarted = false then Except.error "Language Server not started"
  else
    let s1 :=
      if s.hasWaitedForCrossFileReferences then s
      else { s with hasWaitedForCrossFileReferences := true }
    match ensureAstroFilesIndexed pathToUri astroFiles s1 with
    | Except.error e => Except.error e
    | Except.ok s2 => sendTsReferences pathToUri uriToPath root ignored relFile line column response s2

/-- Model of `request_definition` (lines 276-284): guard on `server_started`;
raise if the companion is absent; open the file as a scoped hold and
delegate to the companion (`defResponse` abstracts the companion's
answer, computed externally). -/
def requestDefinition (pathToUri : String → String) (defResponse : List TSLocation)
    (relFile : String) (s : AstroCoordState) :
    Except String (List TSLocation × AstroCoordState) :=
  if s.serverStarted = false then Except.error "Language Server not started"
  else
    match s.tsServer with
    | none => Except.error "TypeScript server not started - cannot request definition"
    | some ts =>
        let uri := pathToUri relFile
        let ts2 := openFileExit (openFileEnter ts uri) uri
        Except.ok (defResponse, { s with tsServer := some ts2 })

/-- Model of `request_rename_symbol_edit` (lines 287-295): same shape as
definition delegation, returning the companion's `WorkspaceEdit | None`
(abstracted as `renameResponse`). -/
def requestRenameSymbolEdit {α : Type} (pathToUri : String → String)
    (renameResponse : Option α) (relFile : String) (s : AstroCoordState) :
    Except String (Option α × AstroCoordState) :=
  if s.serverStarted = false then Except.error "Language Server not started"
  else
    match s.tsServer with
    | none => Except.error "TypeScript server not started - cannot request rename"
    | some ts =>
        let uri := pathToUri relFile
        let ts2 := openFileExit (openFileEnter ts uri) uri
        Except.ok (renameResponse, { s with tsServer := some ts2 })

/-- Per-URI body of the `_cleanup_indexed_astro_files` loop
(lines 490-501), inside its `try`/`except`: skip a URI absent from
`open_file_buffers`; otherwise `file_buffer.ref_count -= 1`, and when
the count reaches zero send `did_close` and delete the buffer.
`closeRaises uri` injects the external `did_close` notification call
raising (e.g. process already exited): the `except` swallows it, leaving
the already-performed decrement in place and the `del` unexecuted. -/
def cleanupOneUriF (closeRaises : String → Bool) (ts : TsServerState) (uri : String) :
    TsServerState :=
  match tblGet ts.openFileBuffers uri with
  | none => ts
  | some n =>
      let tbl1 := tblSet ts.openFileBuffers uri (n - 1)
      if n - 1 = 0 then
        if closeRaises uri then { ts with openFileBuffers := tbl1 }
        else
          { ts with
            openFileBuffers := tblRemove tbl1 uri,
            sentNotifs := ts.sentNotifs ++ [Notif.didClose uri] }
      else { ts with openFileBuffers := tbl1 }

/-- Model of `_cleanup_indexed_astro_files` (lines 485-503): return immediately
when the recorded list is empty or the companion reference is absent;
otherwise walk the recorded URI list and clear it. -/
def cleanupIndexedAstroFilesF (closeRaises : String → Bool) (s : AstroCoordState) :
    AstroCoordState :=
  if s.indexedAstroFileUris.isEmpty then s
  else
    match s.tsServer with
    | none => s
    | some ts =>
        { s with
          tsServer := some (s.indexedAstroFileUris.foldl (cleanupOneUriF closeRaises) ts),
          indexedAstroFileUris := [] }

/-- The external `self._ts_server.stop()` call inside
`_stop_typescript_server`: it either returns or raises. -/
def tsStopRaw (raises : Bool) : Except String Unit :=
  if raises then Except.error "companion stop failed" else Except.ok ()

/-- Model of `_stop_typescript_server` (lines 505-514): when a companion
reference exists, attempt its `stop()` inside `try`/`except` (the raise
is logged and swallowed) and in the `finally` clause null the reference
and clear `_ts_server_started` — on both outcomes. -/
def stopTypescriptServerF (companionStopRaises : Bool) (s : AstroCoordState) :
    AstroCoordState :=
  match s.tsServer with
  | none => s
  | some _ =>
      match tsStopRaw companionStopRaises with
      | Except.ok _ => { s with tsServer := none, tsServerStarted := false }
      | Except.error _ => { s with tsServer := none, tsServerStarted := false }

/-- The three steps of `AstroLanguageServer.stop`, in call order. -/
inductive StopStep where
  | releaseIndexed
  | stopCompanion
  | stopPrimary
deriving DecidableEq, Repr

/-- Model of `stop` (lines 591-595): `_cleanup_indexed_astro_files()`, then
`_stop_typescript_server()`, then `super().stop(shutdown_timeout)` (the
primary-session stop, external to this file). The trace records the
steps in execution order; the fault parameters inject exceptions at the
two guarded steps. -/
def stopAstroModel (closeRaises : String → Bool) (companionStopRaises : Bool)
    (s : AstroCoordState) : AstroCoordState × List StopStep :=
  let s1 := cleanupIndexedAstroFilesF closeRaises s
  let s2 := stopTypescriptServerF companionStopRaises s1
  (s2, [StopStep.releaseIndexed] ++ [StopStep.stopCompanion] ++ [StopStep.stopPrimary])

/-- The `if not event.wait(timeout): log; event.set()` pattern used at
both readiness waits (lines 471-475 and 560-563). Input: whether the
signal fired within the timeout. Output: the signal state after the
block and whether the timeout (warning) path was taken. -/
def waitReadyForceSet (firedWithinTimeout : Bool) : Bool × Bool :=
  if firedWithinTimeout then (true, false) else (true, true)

/-- Externally observable actions on the companion session during
startup. -/
inductive CompanionAction where
  | createServer
  | startServer
  | stopServer
deriving DecidableEq, Repr

/-- Model of `_start_typescript_server` (lines 447-483). Fault parameters inject
an exception in the `AstroTypeScriptServer(...)` construction
(`createRaises`) or in `self._ts_server.start()` (`startRaises`); on
either, the `except` clause logs, sets `_ts_server = None` and
`_ts_server_started = False`, and re-raises. On success the companion
readiness wait runs with the proceed-anyway timeout policy and
`_ts_server_started` is set. The action trace records every call issued
to the companion session. -/
def startTypescriptServerModel (createRaises startRaises tsReadyInTime : Bool)
    (s : AstroCoordState) :
    Except String Unit × AstroCoordState × List CompanionAction :=
  if createRaises then
    (Except.error "Error starting TypeScript server",
     { s with tsServer := none, tsServerStarted := false },
     [CompanionAction.createServer])
  else if startRaises then
    (Except.error "Error starting TypeScript server",
     { s with tsServer := none, tsServerStarted := false },
     [CompanionAction.createServer, CompanionAction.startServer])
  else
    let ready := waitReadyForceSet tsReadyInTime
    (Except.ok (),
     { s with
       tsServer := some { openFileBuffers := [], sentNotifs := [], serverReady := ready.1 },
       tsServerStarted := true },
     [CompanionAction.createServer, CompanionAction.startServer])

/-- Model of `_start_server` (lines 516-565): start the companion first (an
exception there propagates unchanged, line 518); then register the
primary's handlers, start its process and run the initialize handshake
(external calls, modelled as succeeding); then the primary readiness
wait with the same proceed-anyway policy — on either branch
`server_ready` and `completions_available` end up set (the log-message
handler sets both on the fired branch, the timeout branch sets both
explicitly). -/
def startServerModel (createRaises startRaises tsReadyInTime astroReadyInTime : Bool)
    (s : AstroCoordState) :
    Except String Unit × AstroCoordState × List CompanionAction :=
  match startTypescriptServerModel createRaises startRaises tsReadyInTime s with
  | (Except.error e, s1, acts) => (Except.error e, s1, acts)
  | (Except.ok _, s1, acts) =>
      let astroReady := waitReadyForceSet astroReadyInTime
      (Except.ok (),
       { s1 with serverReady := astroReady.1, completionsAvailable := astroReady.1 },
       acts)

/-- Modelled from the spec: `prefer_non_node_modules_definition` is
imported from `typescript_language_server.py`, which is not under
`src/`. Per the spec (§4.4): "the router selects the first candidate NOT
inside a dependency directory, falling back to the first candidate
overall if all are inside dependency directories." `dep` abstracts the
inside-a-dependency-directory (node_modules) test on a candidate. -/
def prefer_non_node_modules_definition (dep : TSLocation → Bool)
    (defs : List TSLocation) : Option TSLocation :=
  match defs.find? (fun d => !(dep d)) with
  | some d => some d
  | none => defs.head?

/-- Model of `_get_preferred_definition` (lines 597-599): direct delegation. -/
def getPreferredDefinition (dep : TSLocation → Bool) (defs : List TSLocation) :
    Option TSLocation :=
  prefer_non_node_modules_definition dep defs

/-- Model of `AstroTypeScriptServer._setup_runtime_dependencies` (lines 55-62):
read the thread-local executable slot, fall back to the default launch
command when it is unset. -/
def setupRuntimeDependenciesTs (threadLocalExecutable : Option (List String)) :
    List String :=
  match threadLocalExecutable with
  | some exe => exe
  | none => ["typescript-language-server", "--stdio"]

/-- Model of `AstroTypeScriptServer.__init__` (lines 80-96): store the launch
command into the thread-local slot, run `super().__init__` (which
consults `_setup_runtime_dependencies`, hence the slot) inside `try`,
and in the `finally` clause reset the slot to `None` — on the normal
return and on the exception path alike (`superRaises` injects
`super().__init__` raising). Result: the outcome of the construction
together with the thread-local slot value after `__init__` finishes,
where the successful outcome carries the launch command the superclass
construction consumed. -/
def astroTsServerInit (superRaises : Bool) (_tl0 : Option (List String))
    (tsLsExecutablePath : List String) :
    Except String (List String) × Option (List String) :=
  let tl1 : Option (List String) := some tsLsExecutablePath
  let cmdUsed := setupRuntimeDependenciesTs tl1
  if superRaises then (Except.error "super().__init__ raised", none)
  else (Except.ok cmdUsed, none)

/-! Section: association-table lemmas -/

theorem tblGet_tblSet_self (tbl : List (String × Int)) (u : String) (v : Int) :
    tblGet (tblSet tbl u v) u = some v := by
  induction tbl with
  | nil => simp [tblSet, tblGet]
  | cons e rest ih =>
      obtain ⟨w, n⟩ := e
      by_cases hw : w = u
      · simp [tblSet, tblGet, hw]
      · simp [tblSet, tblGet, hw, ih]

theorem tblGet_tblSet_ne (tbl : List (String × Int)) (u u' : String) (v : Int)
    (h : u' ≠ u) : tblGet (tblSet tbl u v) u' = tblGet tbl u' := by
  induction tbl with
  | nil => simp [tblSet, tblGet, Ne.symm h]
  | cons e rest ih =>
      obtain ⟨w, n⟩ := e
      by_cases hw : w = u
      · subst hw
        simp [tblSet, tblGet, Ne.symm h]
      · simp [tblSet, tblGet, hw, ih]

theorem tblSet_of_get_none (tbl : List (String × Int)) (u : String) (v : Int)
    (h : tblGet tbl u = none) : tblSet tbl u v = tbl ++ [(u, v)] := by
  induction tbl with
  | nil => simp [tblSet]
  | cons e rest ih =>
      obtain ⟨w, n⟩ := e
      by_cases hw : w = u
      · simp [tblGet, hw] at h
      · simp [tblGet, hw] at h
        simp [tblSet, hw, ih h]

theorem tblGet_append_of_none (tbl l2 : List (String × Int)) (u : String)
    (h : tblGet tbl u = none) : tblGet (tbl ++ l2) u = tblGet l2 u := by
  induction tbl with
  | nil => simp
  | cons e rest ih =>
      obtain ⟨w, n⟩ := e
      by_cases hw : w = u
      · simp [tblGet, hw] at h
      · simp [tblGet, hw] at h ⊢
        exact ih h

theorem tblSet_append_of_none (tbl : List (String × Int)) (u : String) (v w : Int)
    (h : tblGet tbl u = none) : tblSet (tbl ++ [(u, v)]) u w = tbl ++ [(u, w)] := by
  induction tbl with
  | nil => simp [tblSet]
  | cons e rest ih =>
      obtain ⟨x, n⟩ := e
      by_cases hx : x = u
      · simp [tblGet, hx] at h
      · simp [tblGet, hx] at h
        simp [tblSet, hx, ih h]

theorem tblGet_tblRemove_self (tbl : List (String × Int)) (u : String) :
    tblGet (tblRemove tbl u) u = none := by
  induction tbl with
  | nil => rfl
  | cons e rest ih =>
      obtain ⟨w, n⟩ := e
      by_cases hw : w = u
      · simp [tblRemove, hw, ih]
      · simp [tblRemove, tblGet, hw, ih]

theorem tblGet_tblRemove_ne (tbl : List (String × Int)) (u u' : String)
    (h : u' ≠ u) : tblGet (tblRemove tbl u) u' = tblGet tbl u' := by
  induction tbl with
  | nil => rfl
  | cons e rest ih =>
      obtain ⟨w, n⟩ := e
      by_cases hw : w = u
      · subst hw
        simp [tblRemove, tblGet, Ne.symm h, ih]
      · by_cases hw' : w = u'
        · simp [tblRemove, tblGet, hw, hw', h]
        · simp [tblRemove, tblGet, hw, hw', ih]

theorem tblGet_map_one_of_not_mem (us : List String) (u : String) (h : u ∉ us) :
    tblGet (us.map (fun x => (x, (1 : Int)))) u = none := by
  induction us with
  | nil => rfl
  | cons a rest ih =>
      have h1 : ¬ a = u := fun e => h (by simp [e.symm])
      have h2 : u ∉ rest := fun hm => h (List.mem_cons_of_mem _ hm)
      simp [tblGet, h1, ih h2]

/-! Section: indexing, one fresh step, then the whole loop -/

theorem indexOne_fresh (pathToUri : String → String) (ts : TsServerState)
    (uris : List String) (f : String)
    (h : tblGet ts.openFileBuffers (pathToUri f) = none) :
    indexOneAstroFile pathToUri (ts, uris) f =
      ({ openFileBuffers := ts.openFileBuffers ++ [(pathToUri f, 1)],
         sentNotifs := ts.sentNotifs ++ [Notif.didOpen (pathToUri f)],
         serverReady := ts.serverReady }, uris ++ [pathToUri f]) := by
  have h1 : tblGet (ts.openFileBuffers ++ [(pathToUri f, (1 : Int))]) (pathToUri f)
      = some 1 := by
    rw [tblGet_append_of_none _ _ _ h]
    simp [tblGet]
  have h2 : tblGet (ts.openFileBuffers ++ [(pathToUri f, (1 : Int) + 1)]) (pathToUri f)
      = some (1 + 1) := by
    rw [tblGet_append_of_none _ _ _ h]
    simp [tblGet]
  simp only [indexOneAstroFile, openFileEnter, bumpRefCount, openFileExit, h,
    tblSet_of_get_none _ _ _ h, h1, tblSet_append_of_none _ _ _ _ h]
  rw [h2]
  norm_num

theorem fold_index_fresh (pathToUri : String → String) (files : List String)
    (us0 : List String) (notifs0 : List Notif) (rec0 : List String) (rdy : Bool)
    (hnd : (us0 ++ files.map pathToUri).Nodup) :
    files.foldl (indexOneAstroFile pathToUri)
        ({ openFileBuffers := us0.map (fun u => (u, (1 : Int))),
           sentNotifs := notifs0 ++ us0.map Notif.didOpen,
           serverReady := rdy }, rec0) =
      ({ openFileBuffers := (us0 ++ files.map pathToUri).map (fun u => (u, (1 : Int))),
         sentNotifs := notifs0 ++ (us0 ++ files.map pathToUri).map Notif.didOpen,
         serverReady := rdy }, rec0 ++ files.map pathToUri) := by
  induction files generalizing us0 rec0 with
  | nil => simp
  | cons f fs ih =>
      have hdisj := List.disjoint_of_nodup_append hnd
      have hu : pathToUri f ∉ us0 := fun hmem => hdisj hmem (by simp)
      have hget : tblGet (us0.map (fun x => (x, (1 : Int)))) (pathToUri f) = none :=
        tblGet_map_one_of_not_mem us0 (pathToUri f) hu
      have hstep := indexOne_fresh pathToUri
        ({ openFileBuffers := us0.map (fun u => (u, (1 : Int))),
           sentNotifs := notifs0 ++ us0.map Notif.didOpen,
           serverReady := rdy }) rec0 f hget
      have hnd' : ((us0 ++ [pathToUri f]) ++ fs.map pathToUri).Nodup := by
        rw [List.append_assoc]
        simpa using hnd
      have ih' := ih (us0 ++ [pathToUri f]) (rec0 ++ [pathToUri f]) hnd'
      simp only [List.foldl_cons, hstep]
      have e1 : us0.map (fun u => (u, (1 : Int))) ++ [(pathToUri f, 1)]
          = (us0 ++ [pathToUri f]).map (fun u => (u, (1 : Int))) := by simp
      have e2 : (notifs0 ++ us0.map Notif.didOpen) ++ [Notif.didOpen (pathToUri f)]
          = notifs0 ++ (us0 ++ [pathToUri f]).map Notif.didOpen := by simp
      rw [e1, e2, ih']
      simp

theorem ensure_of_indexed (pathToUri : String → String) (files : List String)
    (s : AstroCoordState) (h : s.astroFilesIndexed = true) :
    ensureAstroFilesIndexed pathToUri files s = Except.ok s := by
  simp [ensureAstroFilesIndexed, h]

theorem ensureIndexedN_of_indexed (pathToUri : String → String) (files : List String)
    (n : Nat) (s : AstroCoordState) (h : s.astroFilesIndexed = true) :
    ensureIndexedN pathToUri files n s = Except.ok s := by
  induction n with
  | zero => rfl
  | succ m ih => simp [ensureIndexedN, ensure_of_indexed _ _ _ h, ih]

/-- Claim C1: cross-file indexing is idempotent. On a freshly started
coordination layer (one-shot flag unset, companion present with an empty
open-file table and no notifications sent yet) and a duplicate-free URI
enumeration, calling `_ensure_astro_files_indexed_on_ts_server` N ≥ 1
times equals calling it once; the once-indexed state is a fixed point of
the operation (later calls return it unchanged, so neither the open-file
table nor the recorded URI list moves again); and the companion received
exactly one open notification per enumerated file URI. -/
theorem ensure_indexed_idempotent_open_once (pathToUri : String → String)
    (files : List String) (s : AstroCoordState) (ts : TsServerState) (n : Nat)
    (hidx : s.astroFilesIndexed = false) (hts : s.tsServer = some ts)
    (htbl : ts.openFileBuffers = []) (hnot : ts.sentNotifs = [])
    (hnd : (files.map pathToUri).Nodup) (hn : 1 ≤ n) :
    ensureIndexedN pathToUri files n s = ensureIndexedN pathToUri files 1 s ∧
    ∃ s' ts', ensureIndexedN pathToUri files 1 s = Except.ok s' ∧
      ensureAstroFilesIndexed pathToUri files s' = Except.ok s' ∧
      s'.tsServer = some ts' ∧
      s'.indexedAstroFileUris = s.indexedAstroFileUris ++ files.map pathToUri ∧
      ∀ f ∈ files, ts'.sentNotifs.count (Notif.didOpen (pathToUri f)) = 1 := by
  have hts0 : ts = { openFileBuffers := [], sentNotifs := [], serverReady := ts.serverReady } := by
    cases ts
    simp_all
  have hfold : files.foldl (indexOneAstroFile pathToUri)
      ({ openFileBuffers := [], sentNotifs := [], serverReady := ts.serverReady },
        s.indexedAstroFileUris)
      = ({ openFileBuffers := (files.map pathToUri).map (fun u => (u, (1 : Int))),
           sentNotifs := (files.map pathToUri).map Notif.didOpen,
           serverReady := ts.serverReady },
          s.indexedAstroFileUris ++ files.map pathToUri) := by
    simpa using fold_index_fresh pathToUri files [] [] s.indexedAstroFileUris ts.serverReady
      (by simpa using hnd)
  set ts' : TsServerState :=
    { openFileBuffers := (files.map pathToUri).map (fun u => (u, (1 : Int))),
      sentNotifs := (files.map pathToUri).map Notif.didOpen,
      serverReady := ts.serverReady } with hts'
  set s' : AstroCoordState :=
    { s with
      tsServer := some ts',
      indexedAstroFileUris := s.indexedAstroFileUris ++ files.map pathToUri,
      astroFilesIndexed := true } with hs'
  have hone : ensureAstroFilesIndexed pathToUri files s = Except.ok s' := by
    unfold ensureAstroFilesIndexed
    rw [hidx, hts, hts0]
    simp [hfold, hs', hts']
  have hone' : ensureIndexedN pathToUri files 1 s = Except.ok s' := by
    simp [ensureIndexedN, hone]
  have hfix : ensureAstroFilesIndexed pathToUri files s' = Except.ok s' :=
    ensure_of_indexed _ _ _ (by simp [hs'])
  constructor
  · obtain ⟨m, rfl⟩ : ∃ m, n = m + 1 := ⟨n - 1, by omega⟩
    rw [hone']
    show (match ensureAstroFilesIndexed pathToUri files s with
      | Except.ok s1 => ensureIndexedN pathToUri files m s1
      | Except.error e => Except.error e) = Except.ok s'
    rw [hone]
    exact ensureIndexedN_of_indexed _ _ _ _ (by simp [hs'])
  · refine ⟨s', ts', hone', hfix, by simp [hs'], by simp [hs'], ?_⟩
    intro f hf
    have hinj : Function.Injective Notif.didOpen := by
      intro a b hab
      cases hab
      rfl
    simp only [hts']
    rw [List.count_map_of_injective _ _ hinj]
    exact List.count_eq_one_of_mem hnd (List.mem_map_of_mem _ hf)

/-- A fresh companion session state, used by concrete witnesses. -/
def tsFresh : TsServerState :=
  { openFileBuffers := [], sentNotifs := [], serverReady := true }

/-- A started coordination layer that has not indexed yet, used by
concrete witnesses. -/
def c1Start : AstroCoordState :=
  { serverStarted := true, serverReady := true, completionsAvailable := true,
    tsServer := some tsFresh, tsServerStarted := true, astroFilesIndexed := false,
    indexedAstroFileUris := [], hasWaitedForCrossFileReferences := false }

/-- Witness for `ensure_indexed_idempotent_open_once` at a concrete
input: two files, three calls. -/
theorem ensure_indexed_idempotent_open_once_witness :
    (c1Start.astroFilesIndexed = false ∧ c1Start.tsServer = some tsFresh ∧
     tsFresh.openFileBuffers = [] ∧ tsFresh.sentNotifs = [] ∧
     ((["a.astro", "b.astro"].map (fun p => p)).Nodup) ∧ (1 : Nat) ≤ 3) ∧
    (ensureIndexedN (fun p => p) ["a.astro", "b.astro"] 3 c1Start
        = ensureIndexedN (fun p => p) ["a.astro", "b.astro"] 1 c1Start ∧
     ∃ s' ts', ensureIndexedN (fun p => p) ["a.astro", "b.astro"] 1 c1Start = Except.ok s' ∧
       ensureAstroFilesIndexed (fun p => p) ["a.astro", "b.astro"] s' = Except.ok s' ∧
       s'.tsServer = some ts' ∧
       s'.indexedAstroFileUris
          = c1Start.indexedAstroFileUris ++ ["a.astro", "b.astro"].map (fun p => p) ∧
       ∀ f ∈ ["a.astro", "b.astro"], ts'.sentNotifs.count (Notif.didOpen f) = 1) :=
  ⟨⟨rfl, rfl, rfl, rfl, by decide, by decide⟩,
   ensure_indexed_idempotent_open_once (fun p => p) ["a.astro", "b.astro"] c1Start tsFresh 3
     rfl rfl rfl rfl (by decide) (by decide)⟩

/-! Section: references filtering (C2) -/

theorem filterMap_process_map_loc (uriToPath : String → FsPath) (root : FsPath)
    (ignored : FsPath → Bool) (items : List TSLocation) :
    (items.filterMap (processReferenceItem uriToPath root ignored)).map (fun a => a.loc)
      = items.filter (keepReference uriToPath root ignored) := by
  induction items with
  | nil => rfl
  | cons it rest ih =>
      by_cases h1 : isUnderRoot root (uriToPath it.uri) = true
      · by_cases h2 : ignored (relativeToRoot root (uriToPath it.uri)) = true
        · simp [processReferenceItem, keepReference, h1, h2, ih]
        · simp [processReferenceItem, keepReference, h1, h2, ih]
      · simp [processReferenceItem, keepReference, h1, ih]

theorem mem_filterMap_process (uriToPath : String → FsPath) (root : FsPath)
    (ignored : FsPath → Bool) (items : List TSLocation) (a : AstroLocation)
    (ha : a ∈ items.filterMap (processReferenceItem uriToPath root ignored)) :
    a.absolutePath = uriToPath a.loc.uri ∧
    a.relativePath = relativeToRoot root (uriToPath a.loc.uri) := by
  rw [List.mem_filterMap] at ha
  obtain ⟨it, _hit, hproc⟩ := ha
  unfold processReferenceItem at hproc
  by_cases h1 : isUnderRoot root (uriToPath it.uri) = true
  · by_cases h2 : ignored (relativeToRoot root (uriToPath it.uri)) = true
    · simp [h1, h2] at hproc
    · simp [h1, h2] at hproc
      subst hproc
      simp
  · simp [h1] at hproc

/-- Claim C2: `_send_ts_references_request` keeps exactly the response
locations whose resolved absolute path is under the project root and
whose relative path does not match the ignore policy, in response
order, and every kept location carries its absolute and its
root-relative path; the rest are discarded. -/
theorem references_filter_exact (pathToUri : String → String) (uriToPath : String → FsPath)
    (root : FsPath) (ignored : FsPath → Bool) (relFile : String) (line column : Nat)
    (response : Option (List TSLocation)) (s : AstroCoordState) (ts : TsServerState)
    (hts : s.tsServer = some ts) :
    ∃ res s', sendTsReferences pathToUri uriToPath root ignored relFile line column response s
        = Except.ok (res, s') ∧
      res.map (fun a => a.loc) = (response.getD []).filter (keepReference uriToPath root ignored) ∧
      ∀ a ∈ res, a.absolutePath = uriToPath a.loc.uri ∧
        a.relativePath = relativeToRoot root (uriToPath a.loc.uri) := by
  unfold sendTsReferences
  rw [hts]
  cases response with
  | none => exact ⟨[], _, rfl, by simp, by simp⟩
  | some items =>
      refine ⟨items.filterMap (processReferenceItem uriToPath root ignored), _, rfl, ?_, ?_⟩
      · simpa using filterMap_process_map_loc uriToPath root ignored items
      · intro a ha
        exact mem_filterMap_process uriToPath root ignored items a ha

/-- Witness for `references_filter_exact`: a response with one location
inside the project root, one outside, and one inside but ignored. -/
theorem references_filter_exact_witness :
    (c1Start.tsServer = some tsFresh) ∧
    (∃ res s', sendTsReferences (fun p => p)
          (fun u => if u = "in" then ["r", "a.astro"]
                    else if u = "ig" then ["r", "ignored.astro"] else ["x", "b.ts"])
          ["r"] (fun rp => rp = ["ignored.astro"]) "a.astro" 1 2
          (some [{ uri := "in", line := 3, character := 4 },
                 { uri := "out", line := 5, character := 6 },
                 { uri := "ig", line := 7, character := 8 }]) c1Start
        = Except.ok (res, s') ∧
      res.map (fun a => a.loc)
        = ((some [{ uri := "in", line := 3, character := 4 },
                  { uri := "out", line := 5, character := 6 },
                  { uri := "ig", line := 7, character := 8 }] : Option (List TSLocation)).getD []).filter
            (keepReference
              (fun u => if u = "in" then ["r", "a.astro"]
                        else if u = "ig" then ["r", "ignored.astro"] else ["x", "b.ts"])
              ["r"] (fun rp => rp = ["ignored.astro"])) ∧
      ∀ a ∈ res, a.absolutePath
          = (fun u => if u = "in" then ["r", "a.astro"]
                      else if u = "ig" then ["r", "ignored.astro"] else ["x", "b.ts"]) a.loc.uri ∧
        a.relativePath = relativeToRoot ["r"]
          ((fun u => if u = "in" then ["r", "a.astro"]
                     else if u = "ig" then ["r", "ignored.astro"] else ["x", "b.ts"]) a.loc.uri)) :=
  ⟨rfl,
   references_filter_exact (fun p => p)
     (fun u => if u = "in" then ["r", "a.astro"]
               else if u = "ig" then ["r", "ignored.astro"] else ["x", "b.ts"])
     ["r"] (fun rp => rp = ["ignored.astro"]) "a.astro" 1 2
     (some [{ uri := "in", line := 3, character := 4 },
            { uri := "out", line := 5, character := 6 },
            { uri := "ig", line := 7, character := 8 }]) c1Start tsFresh rfl⟩

/-! Section: shutdown release of indexed files (C3) -/

theorem cleanupOne_frame (cr : String → Bool) (ts : TsServerState) (u u' : String)
    (h : u' ≠ u) :
    tblGet (cleanupOneUriF cr ts u).openFileBuffers u' = tblGet ts.openFileBuffers u' ∧
    (cleanupOneUriF cr ts u).sentNotifs.count (Notif.didClose u')
      = ts.sentNotifs.count (Notif.didClose u') := by
  unfold cleanupOneUriF
  cases hg : tblGet ts.openFileBuffers u with
  | none => exact ⟨rfl, rfl⟩
  | some n =>
      by_cases hz : n - 1 = 0
      · by_cases hcr : cr u = true
        · simp [hz, hcr, tblGet_tblSet_ne _ _ _ _ h]
        · constructor
          · simp only [hz, if_true, hcr, Bool.false_eq_true, if_false]
            rw [tblGet_tblRemove_ne _ _ _ h, tblGet_tblSet_ne _ _ _ _ h]
          · simp [hz, hcr, List.count_append, List.count_singleton', Ne.symm h]
      · simp [hz, tblGet_tblSet_ne _ _ _ _ h]

theorem cleanupOne_self_none (cr : String → Bool) (ts : TsServerState) (u : String)
    (hg : tblGet ts.openFileBuffers u = none) : cleanupOneUriF cr ts u = ts := by
  unfold cleanupOneUriF
  rw [hg]

theorem cleanupOne_self_some (ts : TsServerState) (u : String) (n : Int)
    (hg : tblGet ts.openFileBuffers u = some n) :
    (n - 1 = 0 →
      tblGet (cleanupOneUriF (fun _ => false) ts u).openFileBuffers u = none ∧
      (cleanupOneUriF (fun _ => false) ts u).sentNotifs.count (Notif.didClose u)
        = ts.sentNotifs.count (Notif.didClose u) + 1) ∧
    (n - 1 ≠ 0 →
      tblGet (cleanupOneUriF (fun _ => false) ts u).openFileBuffers u = some (n - 1) ∧
      (cleanupOneUriF (fun _ => false) ts u).sentNotifs.count (Notif.didClose u)
        = ts.sentNotifs.count (Notif.didClose u)) := by
  constructor
  · intro hz
    unfold cleanupOneUriF
    rw [hg]
    simp [hz, tblGet_tblRemove_self, List.count_append, List.count_singleton']
  · intro hz
    unfold cleanupOneUriF
    rw [hg]
    simp [hz, tblGet_tblSet_self]

theorem fold_cleanup_frame (cr : String → Bool) (uris : List String) (ts : TsServerState)
    (u : String) (h : u ∉ uris) :
    tblGet (uris.foldl (cleanupOneUriF cr) ts).openFileBuffers u
      = tblGet ts.openFileBuffers u ∧
    (uris.foldl (cleanupOneUriF cr) ts).sentNotifs.count (Notif.didClose u)
      = ts.sentNotifs.count (Notif.didClose u) := by
  induction uris generalizing ts with
  | nil => exact ⟨rfl, rfl⟩
  | cons v rest ih =>
      have hv : u ≠ v := fun e => h (by simp [e])
      have hrest : u ∉ rest := fun hm => h (List.mem_cons_of_mem _ hm)
      have hstep := cleanupOne_frame cr ts v u hv
      have hih := ih (cleanupOneUriF cr ts v) hrest
      simp only [List.foldl_cons]
      exact ⟨hih.1.trans hstep.1, hih.2.trans hstep.2⟩

theorem fold_cleanup_spec (uris : List String) (ts : TsServerState) (u : String)
    (hmem : u ∈ uris) (hnd : uris.Nodup) :
    (∀ n, tblGet ts.openFileBuffers u = some n →
      (n - 1 = 0 →
        tblGet (uris.foldl (cleanupOneUriF (fun _ => false)) ts).openFileBuffers u = none ∧
        (uris.foldl (cleanupOneUriF (fun _ => false)) ts).sentNotifs.count (Notif.didClose u)
          = ts.sentNotifs.count (Notif.didClose u) + 1) ∧
      (n - 1 ≠ 0 →
        tblGet (uris.foldl (cleanupOneUriF (fun _ => false)) ts).openFileBuffers u
          = some (n - 1) ∧
        (uris.foldl (cleanupOneUriF (fun _ => false)) ts).sentNotifs.count (Notif.didClose u)
          = ts.sentNotifs.count (Notif.didClose u))) ∧
    (tblGet ts.openFileBuffers u = none →
      tblGet (uris.foldl (cleanupOneUriF (fun _ => false)) ts).openFileBuffers u = none ∧
      (uris.foldl (cleanupOneUriF (fun _ => false)) ts).sentNotifs.count (Notif.didClose u)
        = ts.sentNotifs.count (Notif.didClose u)) := by
  induction uris generalizing ts with
  | nil => cases hmem
  | cons v rest ih =>
      simp only [List.foldl_cons]
      rcases List.mem_cons.mp hmem with rfl | hmem'
      · have hvrest : u ∉ rest := (List.nodup_cons.mp hnd).1
        have hframe := fold_cleanup_frame (fun _ => false) rest
          (cleanupOneUriF (fun _ => false) ts u) u hvrest
        constructor
        · intro n hg
          have hstep := cleanupOne_self_some ts u n hg
          constructor
          · intro hz
            obtain ⟨h1, h2⟩ := hstep.1 hz
            exact ⟨hframe.1.trans h1, hframe.2.trans h2⟩
          · intro hz
            obtain ⟨h1, h2⟩ := hstep.2 hz
            exact ⟨hframe.1.trans h1, hframe.2.trans h2⟩
        · intro hg
          rw [cleanupOne_self_none _ _ _ hg] at hframe ⊢
          exact ⟨hframe.1.trans hg, hframe.2⟩
      · have hv : u ≠ v := by
          intro e
          subst e
          exact (List.nodup_cons.mp hnd).1 hmem'
        have hnd' := (List.nodup_cons.mp hnd).2
        have hstep := cleanupOne_frame (fun _ => false) ts v u hv
        have hih := ih (cleanupOneUriF (fun _ => false) ts v) hmem' hnd'
        constructor
        · intro n hg
          have hg' : tblGet (cleanupOneUriF (fun _ => false) ts v).openFileBuffers u = some n :=
            hstep.1.trans hg
          have hres := hih.1 n hg'
          constructor
          · intro hz
            obtain ⟨h1, h2⟩ := hres.1 hz
            exact ⟨h1, by rw [h2, hstep.2]⟩
          · intro hz
            obtain ⟨h1, h2⟩ := hres.2 hz
            exact ⟨h1, by rw [h2, hstep.2]⟩
        · intro hg
          have hg' : tblGet (cleanupOneUriF (fun _ => false) ts v).openFileBuffers u = none :=
            hstep.1.trans hg
          obtain ⟨h1, h2⟩ := hih.2 hg'
          exact ⟨h1, by rw [h2, hstep.2]⟩

/-- Claim C3: `_cleanup_indexed_astro_files` (with the close notification
not raising) walks the recorded URI list and, for each recorded URI
whose buffer is present, decrements its reference count by one, closing
and removing the buffer exactly when the count reaches zero; a URI whose
buffer is absent is never closed; URIs outside the recorded list are
untouched; the recorded list is cleared; and no URI ever receives more
than one additional close notification. -/
theorem cleanup_indexed_release_semantics (s : AstroCoordState) (ts : TsServerState)
    (hts : s.tsServer = some ts) (hnd : s.indexedAstroFileUris.Nodup) :
    ∃ ts', cleanupIndexedAstroFilesF (fun _ => false) s
        = { s with tsServer := some ts', indexedAstroFileUris := [] } ∧
      (∀ uri ∈ s.indexedAstroFileUris,
        (∀ n, tblGet ts.openFileBuffers uri = some n →
          (n - 1 = 0 →
            tblGet ts'.openFileBuffers uri = none ∧
            ts'.sentNotifs.count (Notif.didClose uri)
              = ts.sentNotifs.count (Notif.didClose uri) + 1) ∧
          (n - 1 ≠ 0 →
            tblGet ts'.openFileBuffers uri = some (n - 1) ∧
            ts'.sentNotifs.count (Notif.didClose uri)
              = ts.sentNotifs.count (Notif.didClose uri))) ∧
        (tblGet ts.openFileBuffers uri = none →
          tblGet ts'.openFileBuffers uri = none ∧
          ts'.sentNotifs.count (Notif.didClose uri)
            = ts.sentNotifs.count (Notif.didClose uri))) ∧
      (∀ uri, uri ∉ s.indexedAstroFileUris →
        tblGet ts'.openFileBuffers uri = tblGet ts.openFileBuffers uri ∧
        ts'.sentNotifs.count (Notif.didClose uri)
          = ts.sentNotifs.count (Notif.didClose uri)) ∧
      (∀ uri, ts'.sentNotifs.count (Notif.didClose uri)
        ≤ ts.sentNotifs.count (Notif.didClose uri) + 1) := by
  cases hlist : s.indexedAstroFileUris with
  | nil =>
      refine ⟨ts, ?_, ?_, ?_, ?_⟩
      · have hid : cleanupIndexedAstroFilesF (fun _ => false) s = s := by
          unfold cleanupIndexedAstroFilesF
          rw [hlist]
          rfl
        rw [hid]
        cases s
        simp_all
      · intro uri hmem
        simp at hmem
      · intro uri _
        exact ⟨rfl, rfl⟩
      · intro uri
        omega
  | cons a rest =>
      refine ⟨(a :: rest).foldl (cleanupOneUriF (fun _ => false)) ts, ?_, ?_, ?_, ?_⟩
      · unfold cleanupIndexedAstroFilesF
        rw [hts, hlist]
        rfl
      · intro uri hmem
        have h := fold_cleanup_spec (a :: rest) ts uri (hlist ▸ hmem) (hlist ▸ hnd)
        exact ⟨h.1, h.2⟩
      · intro uri hnot
        exact fold_cleanup_frame _ _ _ _ (fun hm => hnot (hlist ▸ hm))
      · intro uri
        by_cases hmem : uri ∈ (a :: rest)
        · have h := fold_cleanup_spec (a :: rest) ts uri hmem (hlist ▸ hnd)
          cases hg : tblGet ts.openFileBuffers uri with
          | none =>
              rw [(h.2 hg).2]
              omega
          | some n =>
              by_cases hz : n - 1 = 0
              · rw [((h.1 n hg).1 hz).2]
              · rw [((h.1 n hg).2 hz).2]
                omega
        · rw [(fold_cleanup_frame _ _ _ _ hmem).2]
          omega

/-- Companion state for the C3 witness: `u1` held once, `u2` held twice,
`u3` already absent. -/
def tsC3 : TsServerState :=
  { openFileBuffers := [("u1", 1), ("u2", 2)], sentNotifs := [], serverReady := true }

/-- Coordination state for the C3 witness: three recorded URIs. -/
def c3State : AstroCoordState :=
  { serverStarted := true, serverReady := true, completionsAvailable := true,
    tsServer := some tsC3, tsServerStarted := true, astroFilesIndexed := true,
    indexedAstroFileUris := ["u1", "u2", "u3"], hasWaitedForCrossFileReferences := true }

/-- Witness for `cleanup_indexed_release_semantics` at a concrete state. -/
theorem cleanup_indexed_release_semantics_witness :
    (c3State.tsServer = some tsC3 ∧ c3State.indexedAstroFileUris.Nodup) ∧
    (∃ ts', cleanupIndexedAstroFilesF (fun _ => false) c3State
        = { c3State with tsServer := some ts', indexedAstroFileUris := [] } ∧
      (∀ uri ∈ c3State.indexedAstroFileUris,
        (∀ n, tblGet tsC3.openFileBuffers uri = some n →
          (n - 1 = 0 →
            tblGet ts'.openFileBuffers uri = none ∧
            ts'.sentNotifs.count (Notif.didClose uri)
              = tsC3.sentNotifs.count (Notif.didClose uri) + 1) ∧
          (n - 1 ≠ 0 →
            tblGet ts'.openFileBuffers uri = some (n - 1) ∧
            ts'.sentNotifs.count (Notif.didClose uri)
              = tsC3.sentNotifs.count (Notif.didClose uri))) ∧
        (tblGet tsC3.openFileBuffers uri = none →
          tblGet ts'.openFileBuffers uri = none ∧
          ts'.sentNotifs.count (Notif.didClose uri)
            = tsC3.sentNotifs.count (Notif.didClose uri))) ∧
      (∀ uri, uri ∉ c3State.indexedAstroFileUris →
        tblGet ts'.openFileBuffers uri = tblGet tsC3.openFileBuffers uri ∧
        ts'.sentNotifs.count (Notif.didClose uri)
          = tsC3.sentNotifs.count (Notif.didClose uri)) ∧
      (∀ uri, ts'.sentNotifs.count (Notif.didClose uri)
        ≤ tsC3.sentNotifs.count (Notif.didClose uri) + 1)) :=
  ⟨⟨rfl, by decide⟩, cleanup_indexed_release_semantics c3State tsC3 rfl (by decide)⟩

/-! Section: capability guards (C4) -/

/-- Claim C4: each of `request_references`, `request_definition` and
`request_rename_symbol_edit` raises
`SolidLSPException("Language Server not started")` when the coordination
layer is not started, for every possible external response — so no
request is issued and no state is produced. -/
theorem capability_guards_not_started (pathToUri : String → String)
    (uriToPath : String → FsPath) (root : FsPath) (ignored : FsPath → Bool)
    (astroFiles : List String) (relFile : String) (line column : Nat)
    (response : Option (List TSLocation)) (defResponse : List TSLocation)
    (renameResponse : Option String) (s : AstroCoordState)
    (h : s.serverStarted = false) :
    requestReferences pathToUri uriToPath root ignored astroFiles relFile line column response s
        = Except.error "Language Server not started" ∧
    requestDefinition pathToUri defResponse relFile s
        = Except.error "Language Server not started" ∧
    requestRenameSymbolEdit pathToUri renameResponse relFile s
        = Except.error "Language Server not started" := by
  refine ⟨?_, ?_, ?_⟩
  · unfold requestReferences
    rw [h]
    rfl
  · unfold requestDefinition
    rw [h]
    rfl
  · unfold requestRenameSymbolEdit
    rw [h]
    rfl

/-- A coordination layer that was never started, for the C4 witness. -/
def c4Unstarted : AstroCoordState :=
  { serverStarted := false, serverReady := false, completionsAvailable := false,
    tsServer := some tsFresh, tsServerStarted := true, astroFilesIndexed := false,
    indexedAstroFileUris := [], hasWaitedForCrossFileReferences := false }

/-- Witness for `capability_guards_not_started` at a concrete unstarted
state. -/
theorem capability_guards_not_started_witness :
    (c4Unstarted.serverStarted = false) ∧
    (requestReferences (fun p => p) (fun u => [u]) ["r"] (fun _ => false) ["a.astro"]
        "a.astro" 1 2 (some [{ uri := "in", line := 3, character := 4 }]) c4Unstarted
        = Except.error "Language Server not started" ∧
    requestDefinition (fun p => p) [{ uri := "in", line := 3, character := 4 }]
        "a.astro" c4Unstarted
        = Except.error "Language Server not started" ∧
    requestRenameSymbolEdit (fun p => p) (some "edit") "a.astro" c4Unstarted
        = Except.error "Language Server not started") :=
  ⟨rfl,
   capability_guards_not_started (fun p => p) (fun u => [u]) ["r"] (fun _ => false)
     ["a.astro"] "a.astro" 1 2 (some [{ uri := "in", line := 3, character := 4 }])
     [{ uri := "in", line := 3, character := 4 }] (some "edit") c4Unstarted rfl⟩

/-! Section: shutdown ordering and total effort (C5) -/

/-- Claim C5: `stop` always performs release-indexed, stop-companion,
stop-primary in that order; an exception inside the release step (any
`closeRaises`) or in the companion-stop step (`companionStopRaises`) is
absorbed, so the trace is always complete, the result does not depend on
the companion-stop failure at all, and after `stop` the companion
reference is gone. -/
theorem stop_order_total_effort (closeRaises : String → Bool)
    (companionStopRaises : Bool) (s : AstroCoordState) :
    (stopAstroModel closeRaises companionStopRaises s).2
        = [StopStep.releaseIndexed, StopStep.stopCompanion, StopStep.stopPrimary] ∧
    stopAstroModel closeRaises companionStopRaises s = stopAstroModel closeRaises false s ∧
    (stopAstroModel closeRaises companionStopRaises s).1.tsServer = none := by
    refine ⟨rfl, ?_, ?_⟩
    · unfold stopAstroModel stopTypescriptServerF tsStopRaw
      cases companionStopRaises <;>
        cases hcc : (cleanupIndexedAstroFilesF closeRaises s).tsServer <;> simp [hcc]
    · unfold stopAstroModel stopTypescriptServerF tsStopRaw
      cases companionStopRaises <;>
        cases hcc : (cleanupIndexedAstroFilesF closeRaises s).tsServer <;> simp [hcc]

/-! Section: file enumeration (C6) -/

/-- Claim C6 counterexample (the claim as stated is false): `dist/index.astro` lies inside
the build-output directory `dist`, which `is_ignored_dirname` itself
marks as ignored, yet `_find_all_astro_files` enumerates it — its filter
checks only the `node_modules` substring and a leading dot, never
`is_ignored_dirname`. -/
theorem find_all_astro_files_dist_counterexample :
    isIgnoredDirname (fun _ => false) "dist" = true ∧
    findAllAstroFiles ["dist/index.astro"] = ["dist/index.astro"] := by
  refine ⟨rfl, ?_⟩
  rfl

/-- Claim C6 (amended): `_find_all_astro_files` returns exactly the
enumerated `.astro` relative paths that do not contain the substring
`node_modules` and do not start with `.`, preserving enumeration order;
files under `dist` or the `.astro` cache below the top level are not
excluded. -/
theorem find_all_astro_files_amended (relPaths : List String) :
    (∀ p, p ∈ findAllAstroFiles relPaths ↔
      p ∈ relPaths ∧ strContainsSub p "node_modules" = false ∧ strStartsWith p "." = false) ∧
    (findAllAstroFiles relPaths).Sublist relPaths := by
  constructor
  · intro p
    unfold findAllAstroFiles
    rw [List.mem_filter]
    simp
  · exact List.filter_sublist _

/-! Section: readiness waits (C7) -/

/-- Claim C7: both startup readiness waits follow the proceed-anyway
policy: whatever the two signals do within their timeouts,
`_start_server` returns successfully, with the same result as when both
signals fire in time; each wait leaves its signal force-set; and in the
final state the companion's and the primary's readiness signals are both
set. -/
theorem readiness_timeout_force_set_proceeds (tsReady astroReady : Bool)
    (s : AstroCoordState) :
    (waitReadyForceSet tsReady).1 = true ∧
    startServerModel false false tsReady astroReady s
        = startServerModel false false true true s ∧
    (∃ s' ts', startServerModel false false tsReady astroReady s
        = (Except.ok (), s', [CompanionAction.createServer, CompanionAction.startServer]) ∧
      s'.tsServer = some ts' ∧ ts'.serverReady = true ∧
      s'.serverReady = true ∧ s'.completionsAvailable = true) := by
  refine ⟨?_, ?_, ?_⟩
  · cases tsReady <;> rfl
  · unfold startServerModel startTypescriptServerModel waitReadyForceSet
    cases tsReady <;> cases astroReady <;> rfl
  · refine ⟨{ s with
        tsServer := some { openFileBuffers := [], sentNotifs := [], serverReady := true },
        tsServerStarted := true, serverReady := true, completionsAvailable := true },
      { openFileBuffers := [], sentNotifs := [], serverReady := true }, ?_, rfl, rfl, rfl, rfl⟩
    unfold startServerModel startTypescriptServerModel waitReadyForceSet
    cases tsReady <;> cases astroReady <;> rfl

/-! Section: companion start failure (C8) -/

/-- A never-started coordination layer, before `start`. -/
def c8Pre : AstroCoordState :=
  { serverStarted := false, serverReady := false, completionsAvailable := false,
    tsServer := none, tsServerStarted := false, astroFilesIndexed := false,
    indexedAstroFileUris := [], hasWaitedForCrossFileReferences := false }

/-- Claim C8 counterexample (the claim as stated is false): when `self._ts_server.start()`
raises after the companion object was created and its process launch
attempted, the handler only nulls the reference and clears the flag and
re-raises; it issues no stop to the partially started companion (no
`stopServer` action ever appears on the trace), so a half-started
companion process can be left running. -/
theorem start_ts_failure_no_stop_counterexample :
    (startTypescriptServerModel false true true c8Pre).1
        = Except.error "Error starting TypeScript server" ∧
    CompanionAction.startServer ∈ (startTypescriptServerModel false true true c8Pre).2.2 ∧
    CompanionAction.stopServer ∉ (startTypescriptServerModel false true true c8Pre).2.2 := by
  refine ⟨rfl, by decide, by decide⟩

/-- Claim C8 (amended): if an unrecoverable exception occurs while
creating or starting the companion session, `_start_typescript_server`
propagates it (and `_start_server` propagates it to the caller of
`start`); afterward the companion-session reference is absent and the
companion-started flag is false; but the handler performs no stop of a
partially started companion — cleanup is limited to discarding the
reference. -/
theorem start_ts_failure_amended (createRaises startRaises tsReady astroReady : Bool)
    (s : AstroCoordState) (hfail : createRaises = true ∨ startRaises = true) :
    (startTypescriptServerModel createRaises startRaises tsReady s).1
        = Except.error "Error starting TypeScript server" ∧
    (startTypescriptServerModel createRaises startRaises tsReady s).2.1.tsServer = none ∧
    (startTypescriptServerModel createRaises startRaises tsReady s).2.1.tsServerStarted
        = false ∧
    CompanionAction.stopServer
        ∉ (startTypescriptServerModel createRaises startRaises tsReady s).2.2 ∧
    (startServerModel createRaises startRaises tsReady astroReady s).1
        = Except.error "Error starting TypeScript server" := by
  rcases hfail with h | h
  · subst h
    refine ⟨rfl, rfl, rfl, ?_, rfl⟩
    intro hmem
    simp [startTypescriptServerModel] at hmem
  · subst h
    cases createRaises
    · refine ⟨rfl, rfl, rfl, ?_, rfl⟩
      intro hmem
      simp [startTypescriptServerModel] at hmem
    · refine ⟨rfl, rfl, rfl, ?_, rfl⟩
      intro hmem
      simp [startTypescriptServerModel] at hmem

/-- Witness for `start_ts_failure_amended`: the companion's `start()`
raises on a fresh layer. -/
theorem start_ts_failure_amended_witness :
    (false = true ∨ true = true) ∧
    ((startTypescriptServerModel false true true c8Pre).1
        = Except.error "Error starting TypeScript server" ∧
    (startTypescriptServerModel false true true c8Pre).2.1.tsServer = none ∧
    (startTypescriptServerModel false true true c8Pre).2.1.tsServerStarted = false ∧
    CompanionAction.stopServer ∉ (startTypescriptServerModel false true true c8Pre).2.2 ∧
    (startServerModel false true true true c8Pre).1
        = Except.error "Error starting TypeScript server") :=
  ⟨Or.inr rfl, start_ts_failure_amended false true true true c8Pre (Or.inr rfl)⟩

/-! Section: preferred definition (C9) -/

theorem find_first_not_dep (dep : TSLocation → Bool) (l1 : List TSLocation)
    (d : TSLocation) (l2 : List TSLocation)
    (hall : ∀ x ∈ l1, dep x = true) (hd : dep d = false) :
    (l1 ++ d :: l2).find? (fun x => !(dep x)) = some d := by
  induction l1 with
  | nil => simp [List.find?_cons, hd]
  | cons a rest ih =>
      have ha : dep a = true := hall a (by simp)
      have hrest : ∀ x ∈ rest, dep x = true := fun x hx => hall x (by simp [hx])
      simp [List.find?_cons, ha, ih hrest]

/-- Claim C9: for a non-empty candidate list, `_get_preferred_definition`
returns the first candidate not inside a dependency (node_modules)
directory, and falls back to the first candidate overall when every
candidate is inside one; it always returns a candidate. -/
theorem preferred_definition_first_non_dependency (dep : TSLocation → Bool)
    (defs : List TSLocation) (hne : defs ≠ []) :
    ((∀ d ∈ defs, dep d = true) → getPreferredDefinition dep defs = defs.head?) ∧
    (∀ l1 d l2, defs = l1 ++ d :: l2 → (∀ x ∈ l1, dep x = true) → dep d = false →
      getPreferredDefinition dep defs = some d) ∧
    (∃ d, getPreferredDefinition dep defs = some d) := by
  refine ⟨?_, ?_, ?_⟩
  · intro hall
    unfold getPreferredDefinition prefer_non_node_modules_definition
    have hnone : defs.find? (fun d => !(dep d)) = none := by
      rw [List.find?_eq_none]
      intro x hx
      simp [hall x hx]
    rw [hnone]
  · intro l1 d l2 hdefs hall hd
    unfold getPreferredDefinition prefer_non_node_modules_definition
    rw [hdefs, find_first_not_dep dep l1 d l2 hall hd]
  · unfold getPreferredDefinition prefer_non_node_modules_definition
    cases hfind : defs.find? (fun d => !(dep d)) with
    | some d => exact ⟨d, rfl⟩
    | none =>
        cases defs with
        | nil => exact absurd rfl hne
        | cons a l => exact ⟨a, rfl⟩

/-- Witness for `preferred_definition_first_non_dependency`: one
candidate inside `node_modules`, one project candidate after it. -/
theorem preferred_definition_first_non_dependency_witness :
    (([{ uri := "node_modules/lib/a.d.ts", line := 1, character := 0 },
       { uri := "src/a.ts", line := 9, character := 2 }] : List TSLocation) ≠ []) ∧
    (((∀ d ∈ ([{ uri := "node_modules/lib/a.d.ts", line := 1, character := 0 },
              { uri := "src/a.ts", line := 9, character := 2 }] : List TSLocation),
        strContainsSub d.uri "node_modules" = true) →
      getPreferredDefinition (fun d => strContainsSub d.uri "node_modules")
          [{ uri := "node_modules/lib/a.d.ts", line := 1, character := 0 },
           { uri := "src/a.ts", line := 9, character := 2 }]
        = ([{ uri := "node_modules/lib/a.d.ts", line := 1, character := 0 },
            { uri := "src/a.ts", line := 9, character := 2 }] : List TSLocation).head?) ∧
    (∀ l1 d l2,
        ([{ uri := "node_modules/lib/a.d.ts", line := 1, character := 0 },
          { uri := "src/a.ts", line := 9, character := 2 }] : List TSLocation)
          = l1 ++ d :: l2 →
        (∀ x ∈ l1, strContainsSub x.uri "node_modules" = true) →
        strContainsSub d.uri "node_modules" = false →
      getPreferredDefinition (fun d => strContainsSub d.uri "node_modules")
          [{ uri := "node_modules/lib/a.d.ts", line := 1, character := 0 },
           { uri := "src/a.ts", line := 9, character := 2 }]
        = some d) ∧
    (∃ d, getPreferredDefinition (fun d => strContainsSub d.uri "node_modules")
          [{ uri := "node_modules/lib/a.d.ts", line := 1, character := 0 },
           { uri := "src/a.ts", line := 9, character := 2 }]
        = some d)) :=
  ⟨by decide,
   preferred_definition_first_non_dependency (fun d => strContainsSub d.uri "node_modules")
     [{ uri := "node_modules/lib/a.d.ts", line := 1, character := 0 },
      { uri := "src/a.ts", line := 9, character := 2 }] (by decide)⟩

/-! Section: thread-local restore (C10) -/

/-- Claim C10: `AstroTypeScriptServer.__init__` leaves the thread-local
executable slot `None` on every exit path — after a successful
construction and after a propagated `super().__init__` exception alike —
and on success the superclass construction consumed the smuggled launch
command. -/
theorem ts_init_thread_local_restored (superRaises : Bool) (tl0 : Option (List String))
    (exe : List String) :
    (astroTsServerInit superRaises tl0 exe).2 = none ∧
    (astroTsServerInit false tl0 exe).1 = Except.ok exe := by
  constructor
  · unfold astroTsServerInit
    cases superRaises <;> rfl
  · rfl
